import Mathlib

/-!
# Verification of the vscode-colab authentication / tunnel protocol driver

This file is a shallow embedding, in Lean 4, of the protocol driver in
`src/vscode_colab/server.py` of the `vscode-colab` repository: the `login`
and `connect` entry points, their line-scanning logic (the three regular
expressions `url_re`, `code_re` and the tunnel-URL pattern), the 60-second
deadline check, the process-lifecycle handling on every exit path, and the
construction of the tunnel command line with its sorted extension flags.

Lines of text are modelled as `List Char`.  The Python regular expressions
are modelled by executable leftmost-match search functions whose behaviour
is derived from Python `re.search` semantics (leftmost starting position,
greedy quantifiers).  Python `\s` (resp. `\w`) is modelled by its ASCII
meaning; the monitored CLI output is ASCII.

The monitored subprocess is modelled by the sequence of observations the
driver makes of it: for each line read from its combined output stream,
the elapsed wall-clock time at the deadline check, the text of the line,
and whether `poll()` would report the process as exited during that
iteration.  Wall-clock durations are rationals (Python uses floats; no
claim here depends on float rounding).
-/

/-- Uppercase alphanumeric, the character class `[A-Z0-9]` of `code_re`. -/
def isUpperAlnum (c : Char) : Bool :=
  ('A' ≤ c && c ≤ 'Z') || ('0' ≤ c && c ≤ '9')

/-- ASCII whitespace, the character class `\s` of Python `re` (restricted
to ASCII: space, tab, newline, carriage return, vertical tab, form feed). -/
def isPySpace (c : Char) : Bool :=
  c = ' ' || c = '\t' || c = '\n' || c = '\r' || c = '\x0b' || c = '\x0c'

/-- ASCII word character, the character class `\w` of Python `re`
(restricted to ASCII: letters, digits, underscore). -/
def isPyWord (c : Char) : Bool :=
  ('a' ≤ c && c ≤ 'z') || ('A' ≤ c && c ≤ 'Z') || ('0' ≤ c && c ≤ '9') || c = '_'

/-- Does `hay` start with `needle`? -/
def startsWithSeq : List Char → List Char → Bool
  | [], _ => true
  | _ :: _, [] => false
  | n :: ns, h :: hs => n == h && startsWithSeq ns hs

/-- Does `hay` contain `needle` as a contiguous substring?  Models the
Python operator `needle in hay` on strings. -/
def containsSeq (needle : List Char) : List Char → Bool
  | [] => needle.isEmpty
  | h :: hs => startsWithSeq needle (h :: hs) || containsSeq needle hs

/-- The device-login path fragment tested by `login`
(`"github.com/login/device" in um.group(0)`). -/
def deviceFragment : List Char := "github.com/login/device".toList

/-- Attempted match of `url_re = https?://[^\s]+` anchored at the start of
`s`: the scheme literal (the optional `s` is forced by the literal `://`
that follows, so at a given position exactly one of the two scheme
spellings can match), then a non-empty greedy run of non-whitespace. -/
def urlMatchAt (s : List Char) : Option (List Char) :=
  if startsWithSeq "https://".toList s then
    let rest := (s.drop 8).takeWhile (fun c => !isPySpace c)
    if rest.isEmpty then none else some ("https://".toList ++ rest)
  else if startsWithSeq "http://".toList s then
    let rest := (s.drop 7).takeWhile (fun c => !isPySpace c)
    if rest.isEmpty then none else some ("http://".toList ++ rest)
  else none

/-- Model of `url_re.search(line)`: leftmost match of `https?://[^\s]+`. -/
def url_re_search (s : List Char) : Option (List Char) :=
  match s with
  | [] => none
  | _ :: cs =>
    match urlMatchAt s with
    | some m => some m
    | none => url_re_search cs

/-- Attempted match of `code_re = ([A-Z0-9]{4,8}-[A-Z0-9]{4,8})` anchored
at the start of `s`.  The first group is greedy; since every character of
the run is alphanumeric and `-` is not, the only candidate length for the
first group is the full maximal run, which must have length 4..8 and be
followed by `-`; the second group is the greedy `take 8` of the maximal
run after the hyphen, which must have length at least 4. -/
def codeMatchAt (s : List Char) : Option (List Char) :=
  let g1 := s.takeWhile isUpperAlnum
  if 4 ≤ g1.length ∧ g1.length ≤ 8 then
    match s.drop g1.length with
    | '-' :: rest =>
      let r2 := rest.takeWhile isUpperAlnum
      if 4 ≤ r2.length then some (g1 ++ '-' :: r2.take 8) else none
    | _ => none
  else none

/-- Model of `code_re.search(line)`: leftmost match of
`([A-Z0-9]{4,8}-[A-Z0-9]{4,8})`. -/
def code_re_search (s : List Char) : Option (List Char) :=
  match s with
  | [] => none
  | _ :: cs =>
    match codeMatchAt s with
    | some m => some m
    | none => code_re_search cs

/-- The literal head of the tunnel URL pattern
`https://vscode\.dev/tunnel/`. -/
def tunnelLit : List Char := "https://vscode.dev/tunnel/".toList

/-- The class `[\w-]`, the segment character class of the tunnel URL pattern. -/
def isWordDash (c : Char) : Bool := isPyWord c || c = '-'

/-- Attempted match of `https://vscode\.dev/tunnel/[\w-]+(?:/[\w-]+)?`
anchored at the start of `s`: the literal, a non-empty greedy first
segment, then optionally `/` and a non-empty greedy second segment. -/
def tunnelMatchAt (s : List Char) : Option (List Char) :=
  if startsWithSeq tunnelLit s then
    let rest := s.drop tunnelLit.length
    let seg1 := rest.takeWhile isWordDash
    if seg1.isEmpty then none
    else
      match rest.drop seg1.length with
      | '/' :: r2 =>
        let seg2 := r2.takeWhile isWordDash
        if seg2.isEmpty then some (tunnelLit ++ seg1)
        else some (tunnelLit ++ seg1 ++ '/' :: seg2)
      | _ => some (tunnelLit ++ seg1)
  else none

/-- Leftmost match of the tunnel URL pattern in `connect`. -/
def tunnel_url_re_search (s : List Char) : Option (List Char) :=
  match s with
  | [] => none
  | _ :: cs =>
    match tunnelMatchAt s with
    | some m => some m
    | none => tunnel_url_re_search cs

/-! ## Login line scanner

State of the two extraction targets of `login` (`auth_url_found`,
`auth_code_found`, lines 189-190 of `server.py`) and the per-line scan
performed at lines 205-218. -/

/-- The two extraction targets of one `login` invocation. -/
structure LoginScanState where
  auth_url_found : Option (List Char)
  auth_code_found : Option (List Char)
deriving DecidableEq

/-- The device URL extracted from one line: the first match of `url_re`,
kept only when it contains the device-login fragment
(`um = url_re.search(line); um and "github.com/login/device" in um.group(0)`). -/
def deviceLineUrl (line : List Char) : Option (List Char) :=
  match url_re_search line with
  | some u => if containsSeq deviceFragment u then some u else none
  | none => none

/-- One iteration of the scanning part of the `login` loop (lines 205-218
of `server.py`): each target is searched for only while still unset; a
target already found is left untouched. -/
def scanLine (st : LoginScanState) (line : List Char) : LoginScanState :=
  { auth_url_found :=
      match st.auth_url_found with
      | some u => some u
      | none => deviceLineUrl line,
    auth_code_found :=
      match st.auth_code_found with
      | some c => some c
      | none => code_re_search line }

/-- The function `scanLine` folded over a list of lines. -/
def scanLines (st : LoginScanState) : List (List Char) → LoginScanState
  | [] => st
  | l :: ls => scanLines (scanLine st l) ls

/-- Written from the spec's words ("first match wins"): the device URL of
the first line that yields one.  Used to compare the implementation's
accumulated state against the spec's "first-recognized" description. -/
def specFirstDeviceUrl : List (List Char) → Option (List Char)
  | [] => none
  | l :: ls =>
    match deviceLineUrl l with
    | some u => some u
    | none => specFirstDeviceUrl ls

/-- Written from the spec's words ("first match wins"): the code of the
first line that yields one. -/
def specFirstCode : List (List Char) → Option (List Char)
  | [] => none
  | l :: ls =>
    match code_re_search l with
    | some c => some c
    | none => specFirstCode ls

/-! ## The monitoring loops

One observed iteration of `for line in iter(proc.stdout.readline, "")`. -/

/-- One line read from the monitored process, together with the
environment observations made during that iteration of the loop:
`elapsed` is the value of `time.time() - start_time` at the deadline
check, and `exited` is whether `proc.poll()` reports the process as
having exited during this iteration. -/
structure LineEvent where
  elapsed : ℚ
  line : List Char
  exited : Bool
deriving DecidableEq

/-- The constant `timeout_seconds` of `login` (line 185 of `server.py`). -/
def login_timeout_seconds : ℚ := 60

/-- The constant `timeout_seconds` of `connect` (line 406 of `server.py`). -/
def connect_timeout_seconds : ℚ := 60

/-- What one run of the `login` monitoring loop did: the boolean returned,
the arguments of every `display_github_auth_link` call in order, whether
`proc.terminate()` / `proc.wait()` were invoked, and whether the process
was still running when the function returned (a delivered terminate
signal and an observed exit both count as not running). -/
structure MonReport where
  result : Bool
  displayed : List (List Char × List Char)
  terminateCalled : Bool
  waitCalled : Bool
  aliveAtReturn : Bool
deriving DecidableEq

/-- The `login` monitoring loop (lines 195-237 of `server.py`), reading
the observed events in order.  `aliveAtEOF` is whether `proc.poll()`
would report the process alive at the post-loop check of line 233.
Per iteration: the deadline check (lines 196-202), the scan
(lines 205-218), the success return displaying both tokens (lines
220-222), the premature-exit break (lines 224-226); after the loop,
lines 228-237: on missing tokens, terminate and reap if still alive. -/
def runLoginLoop (aliveAtEOF : Bool) (st : LoginScanState) : List LineEvent → MonReport
  | [] =>
    if st.auth_url_found.isSome && st.auth_code_found.isSome then
      { result := true, displayed := [], terminateCalled := false,
        waitCalled := false, aliveAtReturn := aliveAtEOF }
    else
      { result := false, displayed := [], terminateCalled := aliveAtEOF,
        waitCalled := aliveAtEOF, aliveAtReturn := false }
  | e :: es =>
    if login_timeout_seconds < e.elapsed then
      { result := false, displayed := [], terminateCalled := true,
        waitCalled := true, aliveAtReturn := false }
    else
      let st1 := scanLine st e.line
      if st1.auth_url_found.isSome && st1.auth_code_found.isSome then
        { result := true,
          displayed := [(st1.auth_url_found.getD [], st1.auth_code_found.getD [])],
          terminateCalled := false, waitCalled := false, aliveAtReturn := !e.exited }
      else if e.exited then
        { result := false, displayed := [], terminateCalled := false,
          waitCalled := false, aliveAtReturn := false }
      else
        runLoginLoop aliveAtEOF st1 es

/-- What one run of the `connect` monitoring loop did: whether the live
`Popen` handle was returned, the arguments of every
`display_vscode_connection_options` call, and the process disposition. -/
structure ConnMonReport where
  handleReturned : Bool
  displayed : List (List Char × String)
  terminateCalled : Bool
  waitCalled : Bool
  aliveAtReturn : Bool
deriving DecidableEq

/-- The `connect` monitoring loop (lines 411-439 of `server.py`): per
iteration the deadline check (lines 412-418), the single-target URL match
returning the handle (lines 420-425), the premature-exit return (lines
426-430); at EOF (lines 432-439) terminate and reap only if the process
is still alive. -/
def runConnectLoop (name : String) (aliveAtEOF : Bool) : List LineEvent → ConnMonReport
  | [] =>
    if aliveAtEOF then
      { handleReturned := false, displayed := [], terminateCalled := true,
        waitCalled := true, aliveAtReturn := false }
    else
      { handleReturned := false, displayed := [], terminateCalled := false,
        waitCalled := false, aliveAtReturn := false }
  | e :: es =>
    if connect_timeout_seconds < e.elapsed then
      { handleReturned := false, displayed := [], terminateCalled := true,
        waitCalled := true, aliveAtReturn := false }
    else
      match tunnel_url_re_search e.line with
      | some u =>
        { handleReturned := true, displayed := [(u, name)],
          terminateCalled := false, waitCalled := false, aliveAtReturn := !e.exited }
      | none =>
        if e.exited then
          { handleReturned := false, displayed := [], terminateCalled := false,
            waitCalled := false, aliveAtReturn := false }
        else
          runConnectLoop name aliveAtEOF es

/-! ## The full `login` and `connect` pipelines

The steps around the monitoring loop are modelled by the observations the
driver makes of its environment: the results of the executable checks and
of `download_vscode_cli`, whether a pre-launch step raises, and how the
`subprocess.Popen` call and the monitored stream behave. -/

/-- A Python exception as discriminated by the handlers of `login` and
`connect`: `FileNotFoundError` has its own clause (line 239 / line 440 of
`server.py`); every other `Exception` subclass raised by an internal step
falls to the generic clause (line 244 / line 445). -/
inductive PyExn where
  | fileNotFound
  | otherExn
deriving DecidableEq

/-- Behaviour of the `try:` body from the `subprocess.Popen` call onward.
`raiseFnf` is `Popen` raising `FileNotFoundError`; `raiseOther` is any
other `Exception` escaping the body, with flags recording whether the
process object existed and was still alive when the handler ran its
`proc and proc.poll() is None` test; `stdoutNone` is the defensive
`proc.stdout is None` branch (lines 178-182 / 399-403), which terminates
without waiting; `ok` is a normally monitored stream of line events,
ending (if no earlier return fires) at EOF with the given liveness. -/
inductive SpawnOutcome where
  | raiseFnf
  | raiseOther (procCreated : Bool) (procAlive : Bool)
  | stdoutNone
  | ok (events : List LineEvent) (aliveAtEOF : Bool)
deriving DecidableEq

/-- Environment observed by one `login` invocation.
`is_executable_at_start` is the check of line 149;
`download_succeeds` is the result of the `download_vscode_cli` call of
line 153; `is_executable_after_download` is the re-check of line 157.
`preludeExn` is `some e` when one of those pre-launch steps itself raises
`e` (they run before the `try:` of line 167; for example
`system.run_command` inside `download_vscode_cli` calls `subprocess.run`,
which raises when `tar` cannot be executed). -/
structure LoginEnv where
  is_executable_at_start : Bool
  download_succeeds : Bool
  is_executable_after_download : Bool
  preludeExn : Option PyExn
  spawn : SpawnOutcome
deriving DecidableEq

/-- What one `login` invocation did, beyond the monitoring loop:
`downloads` counts the `download_vscode_cli` calls made, `launched`
whether `subprocess.Popen` was invoked. -/
structure LoginReport where
  result : Bool
  displayed : List (List Char × List Char)
  downloads : Nat
  launched : Bool
  terminateCalled : Bool
  waitCalled : Bool
  aliveAtReturn : Bool
deriving DecidableEq

/-- The failure returns of lines 155 and 158-161 of `server.py`: download
attempted once, no process ever started. -/
def loginNoLaunch : LoginReport :=
  { result := false, displayed := [], downloads := 1, launched := false,
    terminateCalled := false, waitCalled := false, aliveAtReturn := false }

/-- The `try`/`except` part of `login` (lines 166-249 of `server.py`),
given the number of download attempts already made.  `raiseFnf` is caught
at line 239 (no cleanup: `Popen` raised, no process exists); `raiseOther`
at line 244 terminates and reaps when a live process exists (lines
246-248); `stdoutNone` terminates without waiting (lines 180-182). -/
def loginLaunch (d : Nat) : SpawnOutcome → LoginReport
  | .raiseFnf =>
    { result := false, displayed := [], downloads := d, launched := true,
      terminateCalled := false, waitCalled := false, aliveAtReturn := false }
  | .raiseOther created alive =>
    { result := false, displayed := [], downloads := d, launched := true,
      terminateCalled := created && alive, waitCalled := created && alive,
      aliveAtReturn := false }
  | .stdoutNone =>
    { result := false, displayed := [], downloads := d, launched := true,
      terminateCalled := true, waitCalled := false, aliveAtReturn := false }
  | .ok events aliveAtEOF =>
    let m := runLoginLoop aliveAtEOF
      { auth_url_found := none, auth_code_found := none } events
    { result := m.result, displayed := m.displayed, downloads := d,
      launched := true, terminateCalled := m.terminateCalled,
      waitCalled := m.waitCalled, aliveAtReturn := m.aliveAtReturn }

/-- The public `login` entry point (lines 129-249 of `server.py`).  A
pre-launch exception propagates: the `try:` of line 167 only begins after
the executable checks and the download attempt.  Otherwise: executable
present at the start means launch directly with no download; else one
`download_vscode_cli` attempt, whose failure, or a still-missing
executable afterwards, returns `False` without launching. -/
def login (env : LoginEnv) : Except PyExn LoginReport :=
  match env.preludeExn with
  | some e => Except.error e
  | none =>
    if env.is_executable_at_start then Except.ok (loginLaunch 0 env.spawn)
    else if !env.download_succeeds then Except.ok loginNoLaunch
    else if !env.is_executable_after_download then Except.ok loginNoLaunch
    else Except.ok (loginLaunch 1 env.spawn)

/-- The set `DEFAULT_EXTENSIONS` of `server.py` (lines 21-32). -/
def DEFAULT_EXTENSIONS : Finset String :=
  { "mgesbert.python-path", "ms-python.black-formatter", "ms-python.isort",
    "ms-python.python", "ms-python.vscode-pylance", "ms-python.debugpy",
    "ms-toolsai.jupyter", "ms-toolsai.jupyter-keymap",
    "ms-toolsai.jupyter-renderers", "ms-toolsai.tensorboard" }

/-- The set `final_extensions` of `connect` (lines 345-349 of `server.py`): a
union of the defaults (when requested) and the caller's list (Python's
`if extensions:` treats `None` and `[]` alike, as does `getD []` here). -/
def final_extensions (include_default_extensions : Bool)
    (extensions : Option (List String)) : Finset String :=
  (if include_default_extensions then DEFAULT_EXTENSIONS else ∅) ∪
    (extensions.getD []).toFinset

/-- The `--install-extension` flags of lines 381-383 of `server.py`:
`for ext_id in sorted(list(final_extensions)): cmd_list.extend(...)`. -/
def install_extension_flags (s : Finset String) : List String :=
  if s = ∅ then []
  else (s.sort (· ≤ ·)).foldr (fun e acc => "--install-extension" :: e :: acc) []

/-- The list `cmd_list` of `connect` (lines 374-383 of `server.py`). -/
def connect_cmd_list (exe name : String) (include_default_extensions : Bool)
    (extensions : Option (List String)) : List String :=
  [exe, "tunnel", "--accept-server-license-terms", "--name", name] ++
    install_extension_flags (final_extensions include_default_extensions extensions)

/-- Outcome of one call to `download_vscode_cli` as observed by
`connect`: the call either raises an exception or returns its boolean.
The raising path is real: on a fresh host the function reaches its
tar-extraction `system.run_command` (server.py line 67), and
`run_command` passes `capture_output=True` together with explicit
`stdout`/`stderr` pipes to `subprocess.run` (system.py lines 30-33 and
60-69), a combination `subprocess.run` rejects with a `ValueError`
during argument validation, before any process is spawned; both
`connect` call sites (lines 290 and 362) sit outside the `try:` of
line 389. -/
inductive DownloadOutcome where
  | raises (e : PyExn)
  | returns (b : Bool)
deriving DecidableEq

/-- Environment observed by one `connect` invocation.
`download1` is the `download_vscode_cli` call of line 290 (which may
itself raise, see `DownloadOutcome`).  `configExn` is `some e` when one
of the configuration steps of lines 294-343 raises `e` — they also run
before the `try:` of line 389; for example `configure_git` calls
`system.run_command(["git", ...])`, whose `capture_output=True` makes
`subprocess.run` raise the same pre-spawn `ValueError`, and the pyenv
and project-setup steps likewise reach `subprocess.run` outside any
handler in `connect`.  `is_executable_at_check` is the check of line
355; on its failure the forced re-download `download2` (line 362) and
the re-check `is_executable_after_redownload` (line 368) follow. -/
structure ConnectEnv where
  name : String
  include_default_extensions : Bool
  extensions : Option (List String)
  download1 : DownloadOutcome
  configExn : Option PyExn
  is_executable_at_check : Bool
  download2 : DownloadOutcome
  is_executable_after_redownload : Bool
  spawn : SpawnOutcome
deriving DecidableEq

/-- What one `connect` invocation did. -/
structure ConnReport where
  handleReturned : Bool
  displayed : List (List Char × String)
  downloads : Nat
  launched : Bool
  terminateCalled : Bool
  waitCalled : Bool
  aliveAtReturn : Bool
deriving DecidableEq

/-- A `connect` failure return with no process ever started (lines
290-292, 365-366, 368-370 of `server.py`). -/
def connectNoLaunch (d : Nat) : ConnReport :=
  { handleReturned := false, displayed := [], downloads := d,
    launched := false, terminateCalled := false, waitCalled := false,
    aliveAtReturn := false }

/-- The `try`/`except` part of `connect` (lines 388-450 of `server.py`);
the handlers mirror those of `login`. -/
def connectLaunch (name : String) (d : Nat) : SpawnOutcome → ConnReport
  | .raiseFnf =>
    { handleReturned := false, displayed := [], downloads := d,
      launched := true, terminateCalled := false, waitCalled := false,
      aliveAtReturn := false }
  | .raiseOther created alive =>
    { handleReturned := false, displayed := [], downloads := d,
      launched := true, terminateCalled := created && alive,
      waitCalled := created && alive, aliveAtReturn := false }
  | .stdoutNone =>
    { handleReturned := false, displayed := [], downloads := d,
      launched := true, terminateCalled := true, waitCalled := false,
      aliveAtReturn := false }
  | .ok events aliveAtEOF =>
    let m := runConnectLoop name aliveAtEOF events
    { handleReturned := m.handleReturned, displayed := m.displayed,
      downloads := d, launched := true, terminateCalled := m.terminateCalled,
      waitCalled := m.waitCalled, aliveAtReturn := m.aliveAtReturn }

/-- The public `connect` entry point (lines 252-450 of `server.py`),
restricted to the behaviour the claims are about (the git / pyenv /
project-setup side effects do not feed back into the tunnel logic except
through `configExn`).  Every step before the `try:` of line 389 can
propagate an exception: the first download call (line 290), the
configuration phase (lines 294-343, reached only after that call
returns `True`), and the forced re-download (line 362, reached only
when the executable check of line 355 fails). -/
def connect (env : ConnectEnv) : Except PyExn ConnReport :=
  match env.download1 with
  | .raises e => Except.error e
  | .returns false => Except.ok (connectNoLaunch 1)
  | .returns true =>
    match env.configExn with
    | some e => Except.error e
    | none =>
      if env.is_executable_at_check then
        Except.ok (connectLaunch env.name 1 env.spawn)
      else
        match env.download2 with
        | .raises e => Except.error e
        | .returns false => Except.ok (connectNoLaunch 2)
        | .returns true =>
          if env.is_executable_after_redownload then
            Except.ok (connectLaunch env.name 2 env.spawn)
          else Except.ok (connectNoLaunch 2)

/-- A string of the exact shape described for the device code: two groups
of 4 to 8 uppercase alphanumeric characters joined by a single hyphen
(the full-match language of `code_re`). -/
def CodeToken (m : List Char) : Prop :=
  ∃ g1 g2 : List Char, m = g1 ++ '-' :: g2 ∧
    4 ≤ g1.length ∧ g1.length ≤ 8 ∧ 4 ≤ g2.length ∧ g2.length ≤ 8 ∧
    (∀ c ∈ g1, isUpperAlnum c = true) ∧ (∀ c ∈ g2, isUpperAlnum c = true)

/-! ## Concrete runs used to instantiate the theorems -/

/-- The example line of the spec: one line carrying both tokens. -/
def demoLoginLine : List Char :=
  "Open https://github.com/login/device and enter code WXYZ-1234".toList

/-- One observed iteration reading `demoLoginLine`, one second in, with
the process still running. -/
def demoLoginEvent : LineEvent :=
  { elapsed := 1, line := demoLoginLine, exited := false }

/-- A `login` run in which the CLI is present and the process emits
`demoLoginLine` as its first output line. -/
def demoLoginEnv : LoginEnv :=
  { is_executable_at_start := true, download_succeeds := true,
    is_executable_after_download := true, preludeExn := none,
    spawn := SpawnOutcome.ok [demoLoginEvent] false }

/-- What `login demoLoginEnv` computes to: success, one presentation
call, process left running, never terminated. -/
def demoLoginReport : LoginReport :=
  { result := true,
    displayed := [("https://github.com/login/device".toList, "WXYZ-1234".toList)],
    downloads := 0, launched := true, terminateCalled := false,
    waitCalled := false, aliveAtReturn := true }

/-- The example line of the spec for `connect`. -/
def demoTunnelLine : List Char :=
  "Open this link in your browser https://vscode.dev/tunnel/colab/abc123".toList

/-- A `connect` run in which the CLI is present and the tunnel process
emits `demoTunnelLine` as its first output line. -/
def demoConnectEnv : ConnectEnv :=
  { name := "colab", include_default_extensions := true, extensions := none,
    download1 := DownloadOutcome.returns true, configExn := none,
    is_executable_at_check := true,
    download2 := DownloadOutcome.returns true,
    is_executable_after_redownload := true,
    spawn := SpawnOutcome.ok [{ elapsed := 1, line := demoTunnelLine, exited := false }] false }

/-- What `connect demoConnectEnv` computes to. -/
def demoConnectReport : ConnReport :=
  { handleReturned := true,
    displayed := [("https://vscode.dev/tunnel/colab/abc123".toList, "colab")],
    downloads := 1, launched := true, terminateCalled := false,
    waitCalled := false, aliveAtReturn := true }

/-- A `login` run whose first read happens 100 seconds in. -/
def demoTimeoutEnv : LoginEnv :=
  { is_executable_at_start := true, download_succeeds := true,
    is_executable_after_download := true, preludeExn := none,
    spawn := SpawnOutcome.ok [{ elapsed := 100, line := [], exited := false }] true }

/-- What `login demoTimeoutEnv` computes to: failure after terminate and
wait. -/
def demoTimeoutReport : LoginReport :=
  { result := false, displayed := [], downloads := 0, launched := true,
    terminateCalled := true, waitCalled := true, aliveAtReturn := false }

/-- A `connect` run with the CLI directory already present — the first
`download_vscode_cli` call returns `True` at the existence check of
server.py line 44 without reaching `subprocess` — and with both git
identity arguments given.  `configure_git` (line 295 of `server.py`)
then calls `system.run_command`, which hands `capture_output=True`
together with explicit `stdout`/`stderr` pipes to `subprocess.run`
(system.py lines 30-33 and 60-69); `subprocess.run` rejects that
combination with `ValueError("stdout and stderr arguments may not be
used with capture_output.")` during argument validation, before any
process is spawned.  That `ValueError` — the model's `otherExn`, not a
`FileNotFoundError` — is raised outside the `try:` of line 389 and
propagates out of `connect`. -/
def gitConfigRaiseEnv : ConnectEnv :=
  { name := "colab", include_default_extensions := true, extensions := none,
    download1 := DownloadOutcome.returns true,
    configExn := some PyExn.otherExn,
    is_executable_at_check := true,
    download2 := DownloadOutcome.returns true,
    is_executable_after_redownload := true,
    spawn := SpawnOutcome.ok [] false }

/-- A `connect` run on a fresh host: the first `download_vscode_cli`
call itself raises — its tar-extraction `system.run_command` at
server.py line 67 hits the same pre-spawn `ValueError` in
`subprocess.run` argument validation — at line 290, outside the `try:`
of line 389. -/
def downloadRaiseEnv : ConnectEnv :=
  { name := "colab", include_default_extensions := true, extensions := none,
    download1 := DownloadOutcome.raises PyExn.otherExn,
    configExn := none,
    is_executable_at_check := true,
    download2 := DownloadOutcome.returns true,
    is_executable_after_redownload := true,
    spawn := SpawnOutcome.ok [] false }

/-- A `login` run in which the CLI is missing, the download call reports
success, but the executable is still absent afterwards. -/
def demoC9Env : LoginEnv :=
  { is_executable_at_start := false, download_succeeds := true,
    is_executable_after_download := false, preludeExn := none,
    spawn := SpawnOutcome.ok [] false }

/-- A line whose first URL is not a device-login URL, while a device
URL appears later on the same line. -/
def demoBannerLine : List Char :=
  "See http://example.com/docs then https://github.com/login/device".toList

/-! ## Helper lemmas: scanner stability and loop steps -/

theorem scanLine_url_some {st : LoginScanState} {l u : List Char}
    (h : st.auth_url_found = some u) : (scanLine st l).auth_url_found = some u := by
  simp [scanLine, h]

theorem scanLine_code_some {st : LoginScanState} {l c : List Char}
    (h : st.auth_code_found = some c) : (scanLine st l).auth_code_found = some c := by
  simp [scanLine, h]

theorem scanLines_url_some : ∀ (ls : List (List Char)) (st : LoginScanState) (u : List Char),
    st.auth_url_found = some u → (scanLines st ls).auth_url_found = some u := by
  intro ls
  induction ls with
  | nil => intro st u h; simpa [scanLines] using h
  | cons l ls ih =>
    intro st u h
    simp only [scanLines]
    exact ih _ u (scanLine_url_some h)

theorem scanLines_code_some : ∀ (ls : List (List Char)) (st : LoginScanState) (c : List Char),
    st.auth_code_found = some c → (scanLines st ls).auth_code_found = some c := by
  intro ls
  induction ls with
  | nil => intro st c h; simpa [scanLines] using h
  | cons l ls ih =>
    intro st c h
    simp only [scanLines]
    exact ih _ c (scanLine_code_some h)

theorem scanLines_url_none : ∀ (ls : List (List Char)) (st : LoginScanState),
    st.auth_url_found = none →
    (scanLines st ls).auth_url_found = specFirstDeviceUrl ls := by
  intro ls
  induction ls with
  | nil => intro st h; simpa [scanLines, specFirstDeviceUrl] using h
  | cons l ls ih =>
    intro st h
    simp only [scanLines, specFirstDeviceUrl]
    cases hd : deviceLineUrl l with
    | some u =>
      rw [scanLines_url_some ls _ u (by simp [scanLine, h, hd])]
    | none =>
      rw [ih _ (by simp [scanLine, h, hd])]

theorem scanLines_code_none : ∀ (ls : List (List Char)) (st : LoginScanState),
    st.auth_code_found = none →
    (scanLines st ls).auth_code_found = specFirstCode ls := by
  intro ls
  induction ls with
  | nil => intro st h; simpa [scanLines, specFirstCode] using h
  | cons l ls ih =>
    intro st h
    simp only [scanLines, specFirstCode]
    cases hd : code_re_search l with
    | some c =>
      rw [scanLines_code_some ls _ c (by simp [scanLine, h, hd])]
    | none =>
      rw [ih _ (by simp [scanLine, h, hd])]

theorem runLoginLoop_cons_timeout {alv : Bool} {st : LoginScanState} {e : LineEvent}
    {es : List LineEvent} (hT : login_timeout_seconds < e.elapsed) :
    runLoginLoop alv st (e :: es) =
      { result := false, displayed := [], terminateCalled := true,
        waitCalled := true, aliveAtReturn := false } := by
  simp [runLoginLoop, hT]

theorem runLoginLoop_cons_success {alv : Bool} {st : LoginScanState} {e : LineEvent}
    {es : List LineEvent} {u c : List Char}
    (hT : ¬ login_timeout_seconds < e.elapsed)
    (hu : (scanLine st e.line).auth_url_found = some u)
    (hc : (scanLine st e.line).auth_code_found = some c) :
    runLoginLoop alv st (e :: es) =
      { result := true, displayed := [(u, c)], terminateCalled := false,
        waitCalled := false, aliveAtReturn := !e.exited } := by
  simp [runLoginLoop, hT, hu, hc]

theorem runLoginLoop_cons_exit {alv : Bool} {st : LoginScanState} {e : LineEvent}
    {es : List LineEvent}
    (hT : ¬ login_timeout_seconds < e.elapsed)
    (hb : ((scanLine st e.line).auth_url_found.isSome &&
           (scanLine st e.line).auth_code_found.isSome) = false)
    (hE : e.exited = true) :
    runLoginLoop alv st (e :: es) =
      { result := false, displayed := [], terminateCalled := false,
        waitCalled := false, aliveAtReturn := false } := by
  simp [runLoginLoop, hT, hb, hE]

theorem runLoginLoop_cons_step {alv : Bool} {st : LoginScanState} {e : LineEvent}
    {es : List LineEvent}
    (hT : ¬ login_timeout_seconds < e.elapsed)
    (hb : ((scanLine st e.line).auth_url_found.isSome &&
           (scanLine st e.line).auth_code_found.isSome) = false)
    (hE : e.exited = false) :
    runLoginLoop alv st (e :: es) = runLoginLoop alv (scanLine st e.line) es := by
  simp [runLoginLoop, hT, hb, hE]

theorem runLoginLoop_nil_notfound {alv : Bool} {st : LoginScanState}
    (hb : (st.auth_url_found.isSome && st.auth_code_found.isSome) = false) :
    runLoginLoop alv st [] =
      { result := false, displayed := [], terminateCalled := alv,
        waitCalled := alv, aliveAtReturn := false } := by
  simp [runLoginLoop, hb]

theorem runLoginLoop_found (alv : Bool) :
    ∀ (P rest : List LineEvent) (st : LoginScanState) (u c : List Char),
      (∀ e ∈ P, ¬ login_timeout_seconds < e.elapsed) →
      (∀ e ∈ P.dropLast, e.exited = false) →
      (st.auth_url_found.isSome && st.auth_code_found.isSome) = false →
      (scanLines st (P.map LineEvent.line)).auth_url_found = some u →
      (scanLines st (P.map LineEvent.line)).auth_code_found = some c →
      (runLoginLoop alv st (P ++ rest)).result = true ∧
        (runLoginLoop alv st (P ++ rest)).displayed = [(u, c)] := by
  intro P
  induction P with
  | nil =>
    intro rest st u c _ _ hnb hu hc
    simp only [List.map_nil, scanLines] at hu hc
    rw [hu, hc] at hnb
    simp at hnb
  | cons e P ih =>
    intro rest st u c hT hX hnb hu hc
    have hTe : ¬ login_timeout_seconds < e.elapsed := hT e (by simp)
    have hscan : scanLines st ((e :: P).map LineEvent.line) =
        scanLines (scanLine st e.line) (P.map LineEvent.line) := by
      simp only [List.map_cons, scanLines]
    rw [hscan] at hu hc
    by_cases hb : ((scanLine st e.line).auth_url_found.isSome &&
        (scanLine st e.line).auth_code_found.isSome) = true
    · rcases hu1 : (scanLine st e.line).auth_url_found with _ | u1
      · rw [hu1] at hb; simp at hb
      rcases hc1 : (scanLine st e.line).auth_code_found with _ | c1
      · rw [hc1] at hb; simp at hb
      have huu : u1 = u := by
        have := scanLines_url_some (P.map LineEvent.line) _ u1 hu1
        rw [this] at hu; exact Option.some.inj hu
      have hcc : c1 = c := by
        have := scanLines_code_some (P.map LineEvent.line) _ c1 hc1
        rw [this] at hc; exact Option.some.inj hc
      subst huu hcc
      rw [List.cons_append, runLoginLoop_cons_success hTe hu1 hc1]
      exact ⟨rfl, rfl⟩
    · have hbf : ((scanLine st e.line).auth_url_found.isSome &&
          (scanLine st e.line).auth_code_found.isSome) = false := by
        simpa using hb
      cases P with
      | nil =>
        exfalso
        simp only [List.map_nil, scanLines] at hu hc
        rw [hu, hc] at hbf
        simp at hbf
      | cons e2 P2 =>
        have hXe : e.exited = false := hX e (by simp)
        rw [List.cons_append, runLoginLoop_cons_step hTe hbf hXe]
        exact ih rest (scanLine st e.line) u c
          (fun x hx => hT x (List.mem_cons_of_mem e hx))
          (fun x hx => hX x (by simp at hx ⊢; exact Or.inr hx))
          hbf hu hc

theorem runLoginLoop_result_iff (alv : Bool) :
    ∀ (es : List LineEvent) (st : LoginScanState),
      (st.auth_url_found.isSome && st.auth_code_found.isSome) = false →
      ((runLoginLoop alv st es).result = true ↔
        ∃ u c, (runLoginLoop alv st es).displayed = [(u, c)]) := by
  intro es
  induction es with
  | nil =>
    intro st hnb
    rw [runLoginLoop_nil_notfound hnb]
    simp
  | cons e es ih =>
    intro st hnb
    by_cases hTe : login_timeout_seconds < e.elapsed
    · rw [runLoginLoop_cons_timeout hTe]; simp
    · by_cases hb : ((scanLine st e.line).auth_url_found.isSome &&
          (scanLine st e.line).auth_code_found.isSome) = true
      · rcases hu1 : (scanLine st e.line).auth_url_found with _ | u1
        · rw [hu1] at hb; simp at hb
        rcases hc1 : (scanLine st e.line).auth_code_found with _ | c1
        · rw [hc1] at hb; simp at hb
        rw [runLoginLoop_cons_success hTe hu1 hc1]
        simp
      · have hbf : ((scanLine st e.line).auth_url_found.isSome &&
            (scanLine st e.line).auth_code_found.isSome) = false := by
          simpa using hb
        by_cases hE : e.exited = true
        · rw [runLoginLoop_cons_exit hTe hbf hE]; simp
        · rw [runLoginLoop_cons_step hTe hbf (by simpa using hE)]
          exact ih _ hbf

theorem runLoginLoop_alive (alv : Bool) :
    ∀ (es : List LineEvent) (st : LoginScanState),
      (st.auth_url_found.isSome && st.auth_code_found.isSome) = false →
      (runLoginLoop alv st es).aliveAtReturn = true →
      (runLoginLoop alv st es).result = true := by
  intro es
  induction es with
  | nil =>
    intro st hnb ha
    rw [runLoginLoop_nil_notfound hnb] at ha
    simp at ha
  | cons e es ih =>
    intro st hnb ha
    by_cases hTe : login_timeout_seconds < e.elapsed
    · rw [runLoginLoop_cons_timeout hTe] at ha; simp at ha
    · by_cases hb : ((scanLine st e.line).auth_url_found.isSome &&
          (scanLine st e.line).auth_code_found.isSome) = true
      · rcases hu1 : (scanLine st e.line).auth_url_found with _ | u1
        · rw [hu1] at hb; simp at hb
        rcases hc1 : (scanLine st e.line).auth_code_found with _ | c1
        · rw [hc1] at hb; simp at hb
        rw [runLoginLoop_cons_success hTe hu1 hc1]
      · have hbf : ((scanLine st e.line).auth_url_found.isSome &&
            (scanLine st e.line).auth_code_found.isSome) = false := by
          simpa using hb
        by_cases hE : e.exited = true
        · rw [runLoginLoop_cons_exit hTe hbf hE] at ha; simp at ha
        · rw [runLoginLoop_cons_step hTe hbf (by simpa using hE)] at ha ⊢
          exact ih _ hbf ha

theorem runLoginLoop_displayed (alv : Bool) :
    ∀ (es : List LineEvent) (st : LoginScanState) (u c : List Char),
      (runLoginLoop alv st es).displayed = [(u, c)] →
      (scanLines st (es.map LineEvent.line)).auth_url_found = some u ∧
        (scanLines st (es.map LineEvent.line)).auth_code_found = some c := by
  intro es
  induction es with
  | nil =>
    intro st u c hd
    by_cases hb : (st.auth_url_found.isSome && st.auth_code_found.isSome) = false
    · rw [runLoginLoop_nil_notfound hb] at hd; simp at hd
    · have hbt : (st.auth_url_found.isSome && st.auth_code_found.isSome) = true := by
        revert hb
        cases st.auth_url_found.isSome && st.auth_code_found.isSome <;> simp
      have : runLoginLoop alv st [] =
          { result := true, displayed := [], terminateCalled := false,
            waitCalled := false, aliveAtReturn := alv } := by
        simp only [runLoginLoop]
        rw [if_pos hbt]
      rw [this] at hd; simp at hd
  | cons e es ih =>
    intro st u c hd
    have hscan : scanLines st ((e :: es).map LineEvent.line) =
        scanLines (scanLine st e.line) (es.map LineEvent.line) := by
      simp only [List.map_cons, scanLines]
    rw [hscan]
    by_cases hTe : login_timeout_seconds < e.elapsed
    · rw [runLoginLoop_cons_timeout hTe] at hd; simp at hd
    · by_cases hb : ((scanLine st e.line).auth_url_found.isSome &&
          (scanLine st e.line).auth_code_found.isSome) = true
      · rcases hu1 : (scanLine st e.line).auth_url_found with _ | u1
        · rw [hu1] at hb; simp at hb
        rcases hc1 : (scanLine st e.line).auth_code_found with _ | c1
        · rw [hc1] at hb; simp at hb
        rw [runLoginLoop_cons_success hTe hu1 hc1] at hd
        simp only [List.cons.injEq, Prod.mk.injEq] at hd
        obtain ⟨⟨h1, h2⟩, -⟩ := hd
        subst h1 h2
        exact ⟨scanLines_url_some _ _ _ hu1, scanLines_code_some _ _ _ hc1⟩
      · have hbf : ((scanLine st e.line).auth_url_found.isSome &&
            (scanLine st e.line).auth_code_found.isSome) = false := by
          simpa using hb
        by_cases hE : e.exited = true
        · rw [runLoginLoop_cons_exit hTe hbf hE] at hd; simp at hd
        · rw [runLoginLoop_cons_step hTe hbf (by simpa using hE)] at hd
          exact ih _ u c hd

theorem runConnectLoop_cons_timeout {name : String} {alv : Bool} {e : LineEvent}
    {es : List LineEvent} (hT : connect_timeout_seconds < e.elapsed) :
    runConnectLoop name alv (e :: es) =
      { handleReturned := false, displayed := [], terminateCalled := true,
        waitCalled := true, aliveAtReturn := false } := by
  simp [runConnectLoop, hT]

theorem runConnectLoop_cons_url {name : String} {alv : Bool} {e : LineEvent}
    {es : List LineEvent} {u : List Char}
    (hT : ¬ connect_timeout_seconds < e.elapsed)
    (hu : tunnel_url_re_search e.line = some u) :
    runConnectLoop name alv (e :: es) =
      { handleReturned := true, displayed := [(u, name)], terminateCalled := false,
        waitCalled := false, aliveAtReturn := !e.exited } := by
  simp [runConnectLoop, hT, hu]

theorem runConnectLoop_cons_exit {name : String} {alv : Bool} {e : LineEvent}
    {es : List LineEvent}
    (hT : ¬ connect_timeout_seconds < e.elapsed)
    (hu : tunnel_url_re_search e.line = none)
    (hE : e.exited = true) :
    runConnectLoop name alv (e :: es) =
      { handleReturned := false, displayed := [], terminateCalled := false,
        waitCalled := false, aliveAtReturn := false } := by
  simp [runConnectLoop, hT, hu, hE]

theorem runConnectLoop_cons_step {name : String} {alv : Bool} {e : LineEvent}
    {es : List LineEvent}
    (hT : ¬ connect_timeout_seconds < e.elapsed)
    (hu : tunnel_url_re_search e.line = none)
    (hE : e.exited = false) :
    runConnectLoop name alv (e :: es) = runConnectLoop name alv es := by
  simp [runConnectLoop, hT, hu, hE]

theorem runConnectLoop_fail (name : String) (alv : Bool) :
    ∀ (es : List LineEvent),
      (runConnectLoop name alv es).handleReturned = false →
      (runConnectLoop name alv es).displayed = [] ∧
        (runConnectLoop name alv es).aliveAtReturn = false ∧
        (runConnectLoop name alv es).terminateCalled = (runConnectLoop name alv es).waitCalled := by
  intro es
  induction es with
  | nil => cases alv <;> simp [runConnectLoop]
  | cons e es ih =>
    intro hh
    by_cases hTe : connect_timeout_seconds < e.elapsed
    · rw [runConnectLoop_cons_timeout hTe]; exact ⟨rfl, rfl, rfl⟩
    · cases hu : tunnel_url_re_search e.line with
      | some u => rw [runConnectLoop_cons_url hTe hu] at hh; simp at hh
      | none =>
        by_cases hE : e.exited = true
        · rw [runConnectLoop_cons_exit hTe hu hE]; exact ⟨rfl, rfl, rfl⟩
        · rw [runConnectLoop_cons_step hTe hu (by simpa using hE)] at hh ⊢
          exact ih hh

theorem runConnectLoop_handle (name : String) (alv : Bool) :
    ∀ (es : List LineEvent),
      (runConnectLoop name alv es).handleReturned = true →
      ∃ u, (runConnectLoop name alv es).displayed = [(u, name)] ∧
        ∃ e, e ∈ es ∧ tunnel_url_re_search e.line = some u := by
  intro es
  induction es with
  | nil =>
    intro hh
    cases alv <;> simp [runConnectLoop] at hh
  | cons e es ih =>
    intro hh
    by_cases hTe : connect_timeout_seconds < e.elapsed
    · rw [runConnectLoop_cons_timeout hTe] at hh; simp at hh
    · cases hu : tunnel_url_re_search e.line with
      | some u =>
        rw [runConnectLoop_cons_url hTe hu]
        exact ⟨u, rfl, e, by simp, hu⟩
      | none =>
        by_cases hE : e.exited = true
        · rw [runConnectLoop_cons_exit hTe hu hE] at hh; simp at hh
        · rw [runConnectLoop_cons_step hTe hu (by simpa using hE)] at hh ⊢
          obtain ⟨u, h1, e2, h2, h3⟩ := ih hh
          exact ⟨u, h1, e2, List.mem_cons_of_mem e h2, h3⟩

theorem takeWhile_all_append {p : Char → Bool} :
    ∀ (g : List Char), (∀ c ∈ g, p c = true) → ∀ (r : List Char),
      (g ++ r).takeWhile p = g ++ r.takeWhile p := by
  intro g
  induction g with
  | nil => intro _ r; simp
  | cons c g ih =>
    intro h r
    have hc : p c = true := h c (by simp)
    simp only [List.cons_append, List.takeWhile_cons, hc, if_true]
    rw [ih (fun x hx => h x (List.mem_cons_of_mem c hx)) r]

theorem takeWhile_stop {p : Char → Bool} (g : List Char) (hg : ∀ c ∈ g, p c = true)
    {x : Char} (hx : p x = false) (r : List Char) :
    (g ++ x :: r).takeWhile p = g := by
  rw [takeWhile_all_append g hg]
  simp [List.takeWhile_cons, hx]

theorem take_length_takeWhile (p : Char → Bool) : ∀ (l : List Char),
    l.take (l.takeWhile p).length = l.takeWhile p := by
  intro l
  induction l with
  | nil => simp
  | cons c cs ih => cases hpc : p c <;> simp [List.takeWhile_cons, hpc, ih]

theorem codeMatchAt_token {s m : List Char} (h : codeMatchAt s = some m) :
    CodeToken m := by
  simp only [codeMatchAt] at h
  split at h
  · rename_i hlen
    split at h
    · rename_i rest hdrop
      split at h
      · rename_i h2
        injection h with hm
        subst hm
        refine ⟨s.takeWhile isUpperAlnum, (rest.takeWhile isUpperAlnum).take 8, rfl,
          hlen.1, hlen.2, ?_, ?_, ?_, ?_⟩
        · rw [List.length_take]; omega
        · rw [List.length_take]; omega
        · intro ch hch; exact List.mem_takeWhile_imp hch
        · intro ch hch; exact List.mem_takeWhile_imp (List.take_subset 8 _ hch)
      · simp at h
    · simp at h
  · simp at h

theorem codeMatchAt_starts {s m : List Char} (h : codeMatchAt s = some m) :
    ∃ t, s = m ++ t := by
  simp only [codeMatchAt] at h
  split at h
  · rename_i hlen
    split at h
    · rename_i rest hdrop
      split at h
      · rename_i h2
        injection h with hm
        subst hm
        have hs : s = s.takeWhile isUpperAlnum ++ ('-' :: rest) := by
          conv_lhs => rw [← List.take_append_drop (s.takeWhile isUpperAlnum).length s]
          rw [take_length_takeWhile, hdrop]
        have hA : rest.takeWhile isUpperAlnum ++
            rest.drop (rest.takeWhile isUpperAlnum).length = rest := by
          conv_rhs => rw [← List.take_append_drop (rest.takeWhile isUpperAlnum).length rest]
          rw [take_length_takeWhile]
        have hB : (rest.takeWhile isUpperAlnum).take 8 ++
            (rest.takeWhile isUpperAlnum).drop 8 = rest.takeWhile isUpperAlnum :=
          List.take_append_drop 8 _
        refine ⟨(rest.takeWhile isUpperAlnum).drop 8 ++
          rest.drop (rest.takeWhile isUpperAlnum).length, ?_⟩
        have hrest : rest = (rest.takeWhile isUpperAlnum).take 8 ++
            ((rest.takeWhile isUpperAlnum).drop 8 ++
              rest.drop (rest.takeWhile isUpperAlnum).length) := by
          calc rest = rest.takeWhile isUpperAlnum ++
                rest.drop (rest.takeWhile isUpperAlnum).length := hA.symm
            _ = ((rest.takeWhile isUpperAlnum).take 8 ++
                  (rest.takeWhile isUpperAlnum).drop 8) ++
                rest.drop (rest.takeWhile isUpperAlnum).length := by rw [hB]
            _ = (rest.takeWhile isUpperAlnum).take 8 ++
                ((rest.takeWhile isUpperAlnum).drop 8 ++
                  rest.drop (rest.takeWhile isUpperAlnum).length) :=
              List.append_assoc _ _ _
        calc s = List.takeWhile isUpperAlnum s ++ '-' :: rest := hs
          _ = List.takeWhile isUpperAlnum s ++ '-' ::
                ((rest.takeWhile isUpperAlnum).take 8 ++
                  ((rest.takeWhile isUpperAlnum).drop 8 ++
                    rest.drop (rest.takeWhile isUpperAlnum).length)) := by
            conv_lhs => rw [hrest]
          _ = (List.takeWhile isUpperAlnum s ++ '-' :: (rest.takeWhile isUpperAlnum).take 8) ++
                ((rest.takeWhile isUpperAlnum).drop 8 ++
                  rest.drop (rest.takeWhile isUpperAlnum).length) := by
            simp [List.append_assoc]
      · simp at h
    · simp at h
  · simp at h

theorem code_re_search_token : ∀ {s m : List Char},
    code_re_search s = some m → CodeToken m := by
  intro s
  induction s with
  | nil => intro m h; simp [code_re_search] at h
  | cons c cs ih =>
    intro m h
    simp only [code_re_search] at h
    split at h
    · rename_i m' hm'
      cases h
      exact codeMatchAt_token hm'
    · exact ih h

theorem code_re_search_occurs : ∀ {s m : List Char},
    code_re_search s = some m → ∃ a b, s = a ++ (m ++ b) := by
  intro s
  induction s with
  | nil => intro m h; simp [code_re_search] at h
  | cons c cs ih =>
    intro m h
    simp only [code_re_search] at h
    split at h
    · rename_i m' hm'
      cases h
      obtain ⟨t, ht⟩ := codeMatchAt_starts hm'
      exact ⟨[], t, by simpa using ht⟩
    · obtain ⟨a, b, hab⟩ := ih h
      exact ⟨c :: a, b, by simp [hab]⟩

theorem code_re_search_isSome_aux : ∀ (a rest : List Char),
    (codeMatchAt rest).isSome = true → (code_re_search (a ++ rest)).isSome = true := by
  intro a
  induction a with
  | nil =>
    intro rest h
    cases rest with
    | nil => simp [codeMatchAt] at h
    | cons c cs =>
      rcases hm : codeMatchAt (c :: cs) with _ | m
      · rw [hm] at h; simp at h
      · simp [code_re_search, hm]
  | cons x a ih =>
    intro rest h
    simp only [List.cons_append, code_re_search]
    rcases hm : codeMatchAt (x :: (a ++ rest)) with _ | m
    · simp only [hm]
      exact ih rest h
    · simp [hm]

theorem codeMatchAt_of_token {t : List Char} (h : CodeToken t) (b : List Char) :
    (codeMatchAt (t ++ b)).isSome = true := by
  obtain ⟨g1, g2, hm, h14, h18, h24, h28, hg1, hg2⟩ := h
  subst hm
  have hminus : isUpperAlnum '-' = false := by decide
  have hassoc : (g1 ++ '-' :: g2) ++ b = g1 ++ '-' :: (g2 ++ b) := by simp
  rw [hassoc]
  have h1 : ((g1 ++ '-' :: (g2 ++ b)).takeWhile isUpperAlnum) = g1 :=
    takeWhile_stop g1 hg1 hminus (g2 ++ b)
  simp only [codeMatchAt, h1]
  rw [if_pos ⟨h14, h18⟩]
  have hdrop : (g1 ++ '-' :: (g2 ++ b)).drop g1.length = '-' :: (g2 ++ b) :=
    List.drop_left g1 _
  simp only [hdrop]
  rw [takeWhile_all_append g2 hg2 b]
  have hlen : 4 ≤ (g2 ++ b.takeWhile isUpperAlnum).length := by
    rw [List.length_append]; omega
  rw [if_pos hlen]
  simp

theorem hyphen_split_unique : ∀ (x x' y y' : List Char),
    (∀ c ∈ x, isUpperAlnum c = true) → (∀ c ∈ x', isUpperAlnum c = true) →
    x ++ '-' :: y = x' ++ '-' :: y' → x = x' ∧ y = y' := by
  intro x
  induction x with
  | nil =>
    intro x' y y' _ hx' heq
    cases x' with
    | nil =>
      simp only [List.nil_append, List.cons.injEq] at heq
      exact ⟨rfl, heq.2⟩
    | cons c xs =>
      exfalso
      simp only [List.nil_append, List.cons_append, List.cons.injEq] at heq
      have hc := hx' c (by simp)
      rw [← heq.1] at hc
      exact absurd hc (by decide)
  | cons c xs ih =>
    intro x' y y' hx hx' heq
    cases x' with
    | nil =>
      exfalso
      simp only [List.nil_append, List.cons_append, List.cons.injEq] at heq
      have hc := hx c (by simp)
      rw [heq.1] at hc
      exact absurd hc (by decide)
    | cons c' xs' =>
      simp only [List.cons_append, List.cons.injEq] at heq
      obtain ⟨hcc, hrest⟩ := heq
      obtain ⟨h1, h2⟩ := ih xs' y y'
        (fun a ha => hx a (List.mem_cons_of_mem c ha))
        (fun a ha => hx' a (List.mem_cons_of_mem c' ha)) hrest
      exact ⟨by rw [hcc, h1], h2⟩

theorem bool_eq_false {b : Bool} (h : ¬ b = true) : b = false := by
  cases b <;> simp_all

theorem loginLaunch_downloads (d : Nat) (s : SpawnOutcome) :
    (loginLaunch d s).downloads = d := by
  cases s <;> rfl

theorem loginLaunch_launched (d : Nat) (s : SpawnOutcome) :
    (loginLaunch d s).launched = true := by
  cases s <;> rfl

theorem login_ok_shape {env : LoginEnv} {r : LoginReport}
    (h : login env = Except.ok r) :
    r = loginNoLaunch ∨ ∃ d, r = loginLaunch d env.spawn := by
  rcases hpre : env.preludeExn with _ | e
  · simp only [login, hpre] at h
    by_cases h1 : env.is_executable_at_start = true
    · rw [if_pos h1] at h
      injection h with h
      exact Or.inr ⟨0, h.symm⟩
    · rw [if_neg h1] at h
      by_cases h2 : (!env.download_succeeds) = true
      · rw [if_pos h2] at h
        injection h with h
        exact Or.inl h.symm
      · rw [if_neg h2] at h
        by_cases h3 : (!env.is_executable_after_download) = true
        · rw [if_pos h3] at h
          injection h with h
          exact Or.inl h.symm
        · rw [if_neg h3] at h
          injection h with h
          exact Or.inr ⟨1, h.symm⟩
  · simp only [login, hpre] at h
    exact absurd h (by simp)

theorem login_no_error {env : LoginEnv} (hpre : env.preludeExn = none) :
    ∃ r, login env = Except.ok r := by
  simp only [login, hpre]
  by_cases h1 : env.is_executable_at_start = true
  · rw [if_pos h1]; exact ⟨_, rfl⟩
  · rw [if_neg h1]
    by_cases h2 : (!env.download_succeeds) = true
    · rw [if_pos h2]; exact ⟨_, rfl⟩
    · rw [if_neg h2]
      by_cases h3 : (!env.is_executable_after_download) = true
      · rw [if_pos h3]; exact ⟨_, rfl⟩
      · rw [if_neg h3]; exact ⟨_, rfl⟩

theorem connect_ok_shape {env : ConnectEnv} {r : ConnReport}
    (h : connect env = Except.ok r) :
    (∃ d, r = connectNoLaunch d) ∨ ∃ d, r = connectLaunch env.name d env.spawn := by
  cases hd1 : env.download1 with
  | raises e =>
    simp only [connect, hd1] at h
    exact absurd h (by simp)
  | returns b1 =>
    cases b1 with
    | false =>
      simp only [connect, hd1] at h
      injection h with h
      exact Or.inl ⟨1, h.symm⟩
    | true =>
      simp only [connect, hd1] at h
      rcases hc : env.configExn with _ | e
      · rw [hc] at h
        by_cases h1 : env.is_executable_at_check = true
        · rw [if_pos h1] at h
          injection h with h
          exact Or.inr ⟨1, h.symm⟩
        · rw [if_neg h1] at h
          cases hd2 : env.download2 with
          | raises e =>
            rw [hd2] at h
            exact absurd h (by simp)
          | returns b2 =>
            cases b2 with
            | false =>
              rw [hd2] at h
              injection h with h
              exact Or.inl ⟨2, h.symm⟩
            | true =>
              rw [hd2] at h
              by_cases h3 : env.is_executable_after_redownload = true
              · rw [if_pos h3] at h
                injection h with h
                exact Or.inr ⟨2, h.symm⟩
              · rw [if_neg h3] at h
                injection h with h
                exact Or.inl ⟨2, h.symm⟩
      · rw [hc] at h
        exact absurd h (by simp)

/-! ## Claim theorems -/

/-- C3: within one `login` invocation, a target once set is never
overwritten by a later line; from the initial state the accumulated
targets are exactly the first-recognized device URL and code of the line
sequence, and whatever pair is handed to the presentation call is that
first-recognized pair, for every sequence of input lines. -/
theorem C3_first_match_stable :
    (∀ (st : LoginScanState) (l u : List Char), st.auth_url_found = some u →
       (scanLine st l).auth_url_found = some u) ∧
    (∀ (st : LoginScanState) (l c : List Char), st.auth_code_found = some c →
       (scanLine st l).auth_code_found = some c) ∧
    (∀ ls : List (List Char),
       (scanLines { auth_url_found := none, auth_code_found := none } ls).auth_url_found =
         specFirstDeviceUrl ls ∧
       (scanLines { auth_url_found := none, auth_code_found := none } ls).auth_code_found =
         specFirstCode ls) ∧
    (∀ (alv : Bool) (events : List LineEvent) (u c : List Char),
       (runLoginLoop alv { auth_url_found := none, auth_code_found := none }
          events).displayed = [(u, c)] →
       specFirstDeviceUrl (events.map LineEvent.line) = some u ∧
         specFirstCode (events.map LineEvent.line) = some c) := by
  refine ⟨fun st l u h => scanLine_url_some h,
    fun st l c h => scanLine_code_some h, ?_, ?_⟩
  · intro ls
    exact ⟨scanLines_url_none ls _ rfl, scanLines_code_none ls _ rfl⟩
  · intro alv events u c h
    obtain ⟨h1, h2⟩ := runLoginLoop_displayed alv events _ u c h
    rw [scanLines_url_none _ _ rfl] at h1
    rw [scanLines_code_none _ _ rfl] at h2
    exact ⟨h1, h2⟩

/-- C3 witness: the first-recognized pair of the demo run is the pair the
loop displays. -/
theorem C3_witness :
    specFirstDeviceUrl ([demoLoginEvent].map LineEvent.line) =
      some "https://github.com/login/device".toList ∧
    specFirstCode ([demoLoginEvent].map LineEvent.line) =
      some "WXYZ-1234".toList :=
  C3_first_match_stable.2.2.2 false [demoLoginEvent]
    ("https://github.com/login/device".toList) ("WXYZ-1234".toList) (by decide)

/-- C4: every code `code_re` recognizes is exactly of the grouped shape
4-8 uppercase alphanumerics, hyphen, 4-8 uppercase alphanumerics; a code
is recognized from a line precisely when the line contains a substring of
that shape; and the recognized code can never be a hyphen-joined
alphanumeric token whose groups fall outside the 4-to-8 bounds (such as a
9-character group).  Note the recognized substring need not be the
longest alphanumeric token of the line: from `ABCDEFGHI-1234` the search
recognizes the embedded in-bounds substring `BCDEFGHI-1234` (see the
witness), but never the out-of-bounds token itself. -/
theorem C4_code_recognition :
    (∀ (line m : List Char), code_re_search line = some m → CodeToken m) ∧
    (∀ line : List Char, (code_re_search line).isSome = true ↔
       ∃ t a b, CodeToken t ∧ line = a ++ (t ++ b)) ∧
    (∀ (line m g1 g2 : List Char), code_re_search line = some m →
       m = g1 ++ '-' :: g2 →
       (∀ c ∈ g1, isUpperAlnum c = true) → (∀ c ∈ g2, isUpperAlnum c = true) →
       4 ≤ g1.length ∧ g1.length ≤ 8 ∧ 4 ≤ g2.length ∧ g2.length ≤ 8) := by
  refine ⟨fun _ _ h => code_re_search_token h, ?_, ?_⟩
  · intro line
    constructor
    · intro h
      rcases hm : code_re_search line with _ | m
      · rw [hm] at h; simp at h
      · obtain ⟨a, b, hab⟩ := code_re_search_occurs hm
        exact ⟨m, a, b, code_re_search_token hm, hab⟩
    · rintro ⟨t, a, b, ht, hline⟩
      subst hline
      exact code_re_search_isSome_aux a (t ++ b) (codeMatchAt_of_token ht b)
  · intro line m g1 g2 hs hm hg1 hg2
    obtain ⟨a1, a2, he, h14, h18, h24, h28, ha1, ha2⟩ := code_re_search_token hs
    rw [hm] at he
    obtain ⟨hx, hy⟩ := hyphen_split_unique g1 a1 g2 a2 hg1 ha1 he
    subst hx
    subst hy
    exact ⟨h14, h18, h24, h28⟩

/-- C4 witness: from a line whose only hyphen-joined token has a
9-character first group, the search recognizes the in-bounds embedded
substring, which is of the exact grouped shape. -/
theorem C4_witness :
    code_re_search "ABCDEFGHI-1234".toList = some "BCDEFGHI-1234".toList ∧
    CodeToken "BCDEFGHI-1234".toList :=
  ⟨by decide, C4_code_recognition.1 ("ABCDEFGHI-1234".toList)
    ("BCDEFGHI-1234".toList) (by decide)⟩

/-- C6: two `connect` invocations whose extension lists are permutations
of one another (same name, same `include_default_extensions`) build the
identical command line: the `--install-extension` flags are appended in
sorted order of the extension-set elements. -/
theorem C6_sorted_extensions_perm :
    ∀ (exe name : String) (incl : Bool) (l1 l2 : List String), l1.Perm l2 →
      connect_cmd_list exe name incl (some l1) =
        connect_cmd_list exe name incl (some l2) := by
  intro exe name incl l1 l2 h
  have hfin : l1.toFinset = l2.toFinset := by
    ext a
    simp [List.mem_toFinset, h.mem_iff]
  simp [connect_cmd_list, final_extensions, hfin]

/-- C6 witness: a concrete swapped pair of extension lists yields the
same command line. -/
theorem C6_witness :
    connect_cmd_list "./code/code" "colab" true (some ["b.ext", "a.ext"]) =
      connect_cmd_list "./code/code" "colab" true (some ["a.ext", "b.ext"]) :=
  C6_sorted_extensions_perm "./code/code" "colab" true _ _
    (List.Perm.swap "a.ext" "b.ext" [])

/-- C7: both monitoring deadlines are the fixed constant 60 seconds, and
whenever an iteration of either loop observes the deadline exceeded, the
loop terminates the process, waits for it, and returns the failure
result with the process no longer alive. -/
theorem C7_timeout_sixty_seconds :
    login_timeout_seconds = 60 ∧ connect_timeout_seconds = 60 ∧
    (∀ (alv : Bool) (st : LoginScanState) (e : LineEvent) (es : List LineEvent),
       login_timeout_seconds < e.elapsed →
       runLoginLoop alv st (e :: es) =
         { result := false, displayed := [], terminateCalled := true,
           waitCalled := true, aliveAtReturn := false }) ∧
    (∀ (name : String) (alv : Bool) (e : LineEvent) (es : List LineEvent),
       connect_timeout_seconds < e.elapsed →
       runConnectLoop name alv (e :: es) =
         { handleReturned := false, displayed := [], terminateCalled := true,
           waitCalled := true, aliveAtReturn := false }) := by
  refine ⟨rfl, rfl, ?_, ?_⟩
  · intro alv st e es h
    exact runLoginLoop_cons_timeout h
  · intro name alv e es h
    exact runConnectLoop_cons_timeout h

/-- C7 witness: a first read at 61 seconds trips both deadlines. -/
theorem C7_witness :
    runLoginLoop false { auth_url_found := none, auth_code_found := none }
      [{ elapsed := 61, line := [], exited := false }] =
      { result := false, displayed := [], terminateCalled := true,
        waitCalled := true, aliveAtReturn := false } ∧
    runConnectLoop "colab" false [{ elapsed := 61, line := [], exited := false }] =
      { handleReturned := false, displayed := [], terminateCalled := true,
        waitCalled := true, aliveAtReturn := false } :=
  ⟨C7_timeout_sixty_seconds.2.2.1 false _ _ [] (by decide),
   C7_timeout_sixty_seconds.2.2.2 "colab" false _ [] (by decide)⟩

/-- C9: when the CLI executable is absent at the start of `login`,
exactly one `download_vscode_cli` attempt is made, and if the executable
is still not present and executable afterwards, `login` returns `False`
without ever launching a login process. -/
theorem C9_download_once_then_fail :
    ∀ (env : LoginEnv) (r : LoginReport), env.is_executable_at_start = false →
      login env = Except.ok r →
      r.downloads = 1 ∧
        (env.is_executable_after_download = false →
          r.result = false ∧ r.launched = false) := by
  intro env r hexe hok
  rcases hpre : env.preludeExn with _ | e
  · simp only [login, hpre] at hok
    rw [if_neg (by simp [hexe])] at hok
    cases hd : env.download_succeeds with
    | false =>
      rw [if_pos (by simp [hd])] at hok
      injection hok with hok
      subst hok
      exact ⟨rfl, fun _ => ⟨rfl, rfl⟩⟩
    | true =>
      rw [if_neg (by simp [hd])] at hok
      cases ha : env.is_executable_after_download with
      | false =>
        rw [if_pos (by simp [ha])] at hok
        injection hok with hok
        subst hok
        exact ⟨rfl, fun _ => ⟨rfl, rfl⟩⟩
      | true =>
        rw [if_neg (by simp [ha])] at hok
        injection hok with hok
        subst hok
        refine ⟨loginLaunch_downloads 1 env.spawn, fun hfa => ?_⟩
        exact absurd hfa (by simp [ha])
  · simp only [login, hpre] at hok
    exact absurd hok (by simp)

/-- C9 witness: CLI absent, download reported successful, executable
still missing: one download, `False`, no process. -/
theorem C9_witness :
    loginNoLaunch.downloads = 1 ∧
      (loginNoLaunch.result = false ∧ loginNoLaunch.launched = false) := by
  have h := C9_download_once_then_fail demoC9Env loginNoLaunch rfl rfl
  exact ⟨h.1, h.2 rfl⟩

/-- C10: only the first URL-shaped substring of a line is tested for the
device-login fragment: whenever the line's first generic-URL match does
not contain the fragment, no device URL is recognized from that line and
the scan leaves the URL target unchanged — even if a device-login URL
occurs later on the same line. -/
theorem C10_first_url_only :
    ∀ (line u : List Char), url_re_search line = some u →
      containsSeq deviceFragment u = false →
      deviceLineUrl line = none ∧
      ∀ st : LoginScanState, (scanLine st line).auth_url_found = st.auth_url_found := by
  intro line u hu hfrag
  have hd : deviceLineUrl line = none := by
    simp [deviceLineUrl, hu, hfrag]
  refine ⟨hd, fun st => ?_⟩
  cases hst : st.auth_url_found with
  | some v => simp [scanLine, hst]
  | none => simp [scanLine, hst, hd]

/-- C10 witness: a line whose first URL is not a device URL yields no
device URL even though the device-login fragment occurs later in it. -/
theorem C10_witness :
    deviceLineUrl demoBannerLine = none ∧
      containsSeq deviceFragment demoBannerLine = true :=
  ⟨(C10_first_url_only demoBannerLine ("http://example.com/docs".toList)
      (by decide) (by decide)).1, by decide⟩

/-- C1: if, within the 60-second deadline and while the process is still
emitting, the scanned lines yield both a device-login URL and a grouped
code (in particular when a single line carries both), `login` returns
`True` and `display_github_auth_link` is called exactly once, with the
first-recognized URL and code; moreover `login` returns `True` iff both
tokens were extracted and shown (the presentation call happened, once,
with them). -/
theorem C1_login_success_displays_once :
    (∀ (env : LoginEnv) (P rest : List LineEvent) (alv : Bool) (u c : List Char),
       env.preludeExn = none →
       env.spawn = SpawnOutcome.ok (P ++ rest) alv →
       (env.is_executable_at_start = true ∨
         (env.download_succeeds = true ∧ env.is_executable_after_download = true)) →
       (∀ e ∈ P, ¬ login_timeout_seconds < e.elapsed) →
       (∀ e ∈ P.dropLast, e.exited = false) →
       (scanLines { auth_url_found := none, auth_code_found := none }
          (P.map LineEvent.line)).auth_url_found = some u →
       (scanLines { auth_url_found := none, auth_code_found := none }
          (P.map LineEvent.line)).auth_code_found = some c →
       ∃ r, login env = Except.ok r ∧ r.result = true ∧ r.displayed = [(u, c)]) ∧
    (∀ (env : LoginEnv) (r : LoginReport), login env = Except.ok r →
       (r.result = true ↔ ∃ u c, r.displayed = [(u, c)])) := by
  constructor
  · intro env P rest alv u c hpre hspawn hexe hT hX hu hc
    have hloop := runLoginLoop_found alv P rest
      { auth_url_found := none, auth_code_found := none } u c hT hX rfl hu hc
    by_cases h1 : env.is_executable_at_start = true
    · refine ⟨loginLaunch 0 env.spawn, ?_, ?_, ?_⟩
      · simp only [login, hpre]
        rw [if_pos h1]
      · rw [hspawn]; exact hloop.1
      · rw [hspawn]; exact hloop.2
    · rcases hexe with h1t | ⟨h2, h3⟩
      · exact absurd h1t h1
      · refine ⟨loginLaunch 1 env.spawn, ?_, ?_, ?_⟩
        · simp only [login, hpre]
          rw [if_neg h1, if_neg (by simp [h2]), if_neg (by simp [h3])]
        · rw [hspawn]; exact hloop.1
        · rw [hspawn]; exact hloop.2
  · intro env r hok
    rcases login_ok_shape hok with h | ⟨d, h⟩
    · subst h
      simp [loginNoLaunch]
    · subst h
      cases hsp : env.spawn with
      | raiseFnf => simp [loginLaunch]
      | raiseOther cr al => simp [loginLaunch]
      | stdoutNone => simp [loginLaunch]
      | ok events alv =>
        exact runLoginLoop_result_iff alv events
          { auth_url_found := none, auth_code_found := none } rfl

/-- C1 witness: the spec's example line, read one second in, yields
success and the single presentation call with exactly its URL and code. -/
theorem C1_witness :
    ∃ r, login demoLoginEnv = Except.ok r ∧ r.result = true ∧
      r.displayed = [("https://github.com/login/device".toList, "WXYZ-1234".toList)] :=
  C1_login_success_displays_once.1 demoLoginEnv [demoLoginEvent] [] false
    ("https://github.com/login/device".toList) ("WXYZ-1234".toList)
    rfl rfl (Or.inl rfl) (by decide) (by decide) (by decide) (by decide)

/-- C2: `connect` hands back the process handle only when a tunnel URL
was recognized in the output and shown (and conversely), and on every
failure path of the monitored run — timeout, premature exit,
end-of-stream without a match — the process is not left running: it is
terminated exactly when it is also waited for, and a `None` result is
never accompanied by a live process. -/
theorem C2_connect_failure_cleanup :
    ∀ (env : ConnectEnv) (r : ConnReport), connect env = Except.ok r →
      (r.handleReturned = true ↔ ∃ u, r.displayed = [(u, env.name)]) ∧
      (r.handleReturned = true → ∃ events alv, env.spawn = SpawnOutcome.ok events alv ∧
         ∃ e, e ∈ events ∧ ∃ u, tunnel_url_re_search e.line = some u ∧
           r.displayed = [(u, env.name)]) ∧
      (r.handleReturned = false → r.aliveAtReturn = false ∧ r.displayed = []) ∧
      (∀ events alv, env.spawn = SpawnOutcome.ok events alv →
         r.handleReturned = false → r.terminateCalled = r.waitCalled) := by
  intro env r hok
  rcases connect_ok_shape hok with ⟨d, h⟩ | ⟨d, h⟩
  · subst h
    refine ⟨?_, ?_, fun _ => ⟨rfl, rfl⟩, fun _ _ _ _ => rfl⟩
    · simp [connectNoLaunch]
    · intro hh
      exact absurd hh (by simp [connectNoLaunch])
  · subst h
    cases hsp : env.spawn with
    | raiseFnf =>
      refine ⟨by simp [connectLaunch], ?_, fun _ => ⟨rfl, rfl⟩, fun _ _ heq _ => ?_⟩
      · intro hh
        exact absurd hh (by simp [connectLaunch])
      · exact absurd heq (by simp)
    | raiseOther cr al =>
      refine ⟨by simp [connectLaunch], ?_, fun _ => ⟨rfl, rfl⟩, fun _ _ heq _ => ?_⟩
      · intro hh
        exact absurd hh (by simp [connectLaunch])
      · exact absurd heq (by simp)
    | stdoutNone =>
      refine ⟨by simp [connectLaunch], ?_, fun _ => ⟨rfl, rfl⟩, fun _ _ heq _ => ?_⟩
      · intro hh
        exact absurd hh (by simp [connectLaunch])
      · exact absurd heq (by simp)
    | ok events alv =>
      refine ⟨?_, ?_, ?_, ?_⟩
      · constructor
        · intro hh
          obtain ⟨u, h1, -⟩ := runConnectLoop_handle env.name alv events hh
          exact ⟨u, h1⟩
        · rintro ⟨u, hd⟩
          by_cases hh : (runConnectLoop env.name alv events).handleReturned = true
          · exact hh
          · obtain ⟨h1, -, -⟩ :=
              runConnectLoop_fail env.name alv events (bool_eq_false hh)
            have hd2 : (runConnectLoop env.name alv events).displayed =
                [(u, env.name)] := hd
            rw [h1] at hd2
            exact absurd hd2 (by simp)
      · intro hh
        obtain ⟨u, h1, e, hmem, hsearch⟩ := runConnectLoop_handle env.name alv events hh
        exact ⟨events, alv, rfl, e, hmem, u, hsearch, h1⟩
      · intro hh
        obtain ⟨h1, h2, -⟩ := runConnectLoop_fail env.name alv events hh
        exact ⟨h2, h1⟩
      · intro ev2 alv2 heq hh
        obtain ⟨-, -, h3⟩ := runConnectLoop_fail env.name alv events hh
        exact h3

/-- C2 witness: the spec's tunnel example line yields a returned handle
and the single presentation call with the URL and the tunnel name. -/
theorem C2_witness :
    ∃ u, demoConnectReport.displayed = [(u, demoConnectEnv.name)] :=
  (C2_connect_failure_cleanup demoConnectEnv demoConnectReport rfl).1.mp rfl

/-- C5 counterexample: on `demoLoginEnv`, `login` returns `True` with the
monitored process still running, never terminated and never waited for —
yet `login` hands back only a boolean, not the handle.  This contradicts
the claim that the process may remain running only in the tunnel success
case where the handle is returned to the caller, and that every other
case ends fully terminated-and-reaped before the function returns. -/
theorem C5_counterexample :
    login demoLoginEnv = Except.ok demoLoginReport ∧
      demoLoginReport.result = true ∧
      demoLoginReport.aliveAtReturn = true ∧
      demoLoginReport.terminateCalled = false ∧
      demoLoginReport.waitCalled = false :=
  ⟨rfl, rfl, rfl, rfl, rfl⟩

/-- C5 amended: exactly one terminal outcome is produced per invocation
(the run functions are total), and the process can still be running at
return only on the success paths: `connect`'s success, where the live
handle is returned, and `login`'s success, where the process is
intentionally left running but only a boolean is handed back; on every
non-success path the process is no longer alive when the function
returns. -/
theorem C5_amended_process_disposition :
    (∀ (env : LoginEnv) (r : LoginReport), login env = Except.ok r →
       (r.aliveAtReturn = true → r.result = true ∧ ∃ u c, r.displayed = [(u, c)]) ∧
       (r.result = false → r.aliveAtReturn = false)) ∧
    (∀ (env : ConnectEnv) (r : ConnReport), connect env = Except.ok r →
       (r.aliveAtReturn = true → r.handleReturned = true) ∧
       (r.handleReturned = false → r.aliveAtReturn = false)) := by
  constructor
  · intro env r hok
    rcases login_ok_shape hok with h | ⟨d, h⟩
    · subst h
      exact ⟨fun ha => absurd ha (by simp [loginNoLaunch]), fun _ => rfl⟩
    · subst h
      cases hsp : env.spawn with
      | raiseFnf => exact ⟨fun ha => absurd ha (by simp [loginLaunch]), fun _ => rfl⟩
      | raiseOther cr al => exact ⟨fun ha => absurd ha (by simp [loginLaunch]), fun _ => rfl⟩
      | stdoutNone => exact ⟨fun ha => absurd ha (by simp [loginLaunch]), fun _ => rfl⟩
      | ok events alv =>
        constructor
        · intro ha
          have hres := runLoginLoop_alive alv events
            { auth_url_found := none, auth_code_found := none } rfl ha
          exact ⟨hres, (runLoginLoop_result_iff alv events
            { auth_url_found := none, auth_code_found := none } rfl).mp hres⟩
        · intro hres
          by_cases ha : (runLoginLoop alv
              { auth_url_found := none, auth_code_found := none } events).aliveAtReturn = true
          · have hthis := runLoginLoop_alive alv events
              { auth_url_found := none, auth_code_found := none } rfl ha
            have hres2 : (runLoginLoop alv
                { auth_url_found := none, auth_code_found := none } events).result =
                false := hres
            rw [hres2] at hthis
            exact absurd hthis (by simp)
          · exact bool_eq_false ha
  · intro env r hok
    rcases connect_ok_shape hok with ⟨d, h⟩ | ⟨d, h⟩
    · subst h
      exact ⟨fun ha => absurd ha (by simp [connectNoLaunch]), fun _ => rfl⟩
    · subst h
      cases hsp : env.spawn with
      | raiseFnf => exact ⟨fun ha => absurd ha (by simp [connectLaunch]), fun _ => rfl⟩
      | raiseOther cr al =>
        constructor
        · intro ha
          exact absurd ha (by simp [connectLaunch])
        · intro _
          simp [connectLaunch]
      | stdoutNone => exact ⟨fun ha => absurd ha (by simp [connectLaunch]), fun _ => rfl⟩
      | ok events alv =>
        constructor
        · intro ha
          by_cases hh : (runConnectLoop env.name alv events).handleReturned = true
          · exact hh
          · obtain ⟨-, h2, -⟩ :=
              runConnectLoop_fail env.name alv events (bool_eq_false hh)
            have ha2 : (runConnectLoop env.name alv events).aliveAtReturn = true := ha
            rw [h2] at ha2
            exact absurd ha2 (by simp)
        · intro hh
          obtain ⟨-, h2, -⟩ := runConnectLoop_fail env.name alv events hh
          exact h2

/-- C5 amended witness: a timed-out `login` run ends with the process not
alive. -/
theorem C5_witness : demoTimeoutReport.aliveAtReturn = false :=
  (C5_amended_process_disposition.1 demoTimeoutEnv demoTimeoutReport rfl).2 rfl

/-- C8 counterexample: on `gitConfigRaiseEnv` — CLI already present,
`connect` called with both git identity arguments — `configure_git`'s
`system.run_command` (line 295 of `server.py`) makes `subprocess.run`
raise a pre-spawn `ValueError` (its `capture_output=True` conflicts
with the explicit `stdout`/`stderr` pipes that `run_command` also
passes, system.py lines 30-33 and 60-69); the exception occurs before
the `try:` of line 389 and propagates out of `connect` to the caller,
contradicting the claim that no exception ever crosses the public
boundary. -/
theorem C8_counterexample :
    connect gitConfigRaiseEnv = Except.error PyExn.otherExn := rfl

/-- C8 amended: the `try`/`except` of `login` and `connect` encloses only
the launch and the monitoring: an exception raised there is always
caught and reduced to the boolean / optional-handle result, but an
exception raised by any pre-launch step propagates to the caller.
Precisely: `login` raises `e` iff its pre-launch phase (executable
checks and download) raises `e`; `connect` raises `e` iff its first
`download_vscode_cli` call raises `e`, or that call returns `True` and
the git / Python / project configuration raises `e`, or the
configuration is quiet, the executable check fails, and the forced
re-download raises `e`. -/
theorem C8_amended_exception_boundary :
    (∀ (env : LoginEnv) (e : PyExn),
       login env = Except.error e ↔ env.preludeExn = some e) ∧
    (∀ (env : ConnectEnv) (e : PyExn),
       connect env = Except.error e ↔
         (env.download1 = DownloadOutcome.raises e ∨
          (env.download1 = DownloadOutcome.returns true ∧
            (env.configExn = some e ∨
             (env.configExn = none ∧ env.is_executable_at_check = false ∧
              env.download2 = DownloadOutcome.raises e))))) := by
  constructor
  · intro env e
    constructor
    · intro h
      rcases hpre : env.preludeExn with _ | e'
      · obtain ⟨r, hr⟩ := login_no_error hpre
        rw [hr] at h
        exact absurd h (by simp)
      · simp only [login, hpre] at h
        injection h with he
        rw [he]
    · intro h
      simp [login, h]
  · intro env e
    obtain ⟨nm, incl, exts, d1, cfg, ex1, d2, ex2, sp⟩ := env
    cases d1 with
    | raises e1 => simp [connect]
    | returns b1 =>
      cases b1 with
      | false => simp [connect]
      | true =>
        cases cfg with
        | some e1 => simp [connect]
        | none =>
          cases ex1 with
          | true => simp [connect]
          | false =>
            cases d2 with
            | raises e2 => simp [connect]
            | returns b2 =>
              cases b2 with
              | false => simp [connect]
              | true => cases ex2 <;> simp [connect]

/-- C8 amended witness: a first download call that itself raises (the
fresh-host tar-extraction path) propagates out of `connect`, as the
amended boundary statement predicts. -/
theorem C8_witness : connect downloadRaiseEnv = Except.error PyExn.otherExn :=
  (C8_amended_exception_boundary.2 downloadRaiseEnv PyExn.otherExn).mpr (Or.inl rfl)

/-! ## Cross-checks of the regular-expression models

Concrete evaluations agreeing with Python `re.search` on the same
inputs. -/

theorem url_re_search_check :
    url_re_search "Open https://github.com/login/device now".toList
      = some "https://github.com/login/device".toList := by decide

theorem code_re_search_check :
    code_re_search "use code WXYZ-1234 ok".toList
      = some "WXYZ-1234".toList := by decide

theorem code_re_search_inner_check :
    code_re_search "ABCDEFGHI-1234".toList
      = some "BCDEFGHI-1234".toList := by decide

theorem tunnel_url_re_search_check :
    tunnel_url_re_search "go https://vscode.dev/tunnel/colab/abc123 .".toList
      = some "https://vscode.dev/tunnel/colab/abc123".toList := by decide
